import Mathlib

/-!
Verification development for the MarketShares spreadsheet-analysis
repository.  The definitions below are a shallow embedding of the
column-detection and record-normalization engine found in
`src/utils/fileProcessor.js` (function `extractMarketShareData` and its
surrounding helpers).  JavaScript numbers are idealized as rationals;
JavaScript strings are Lean strings; a spreadsheet cell is one of
absent / text / number, following the repository's data model.
-/

set_option allowUnsafeReducibility true

attribute [semireducible] Rat.mul Rat.add Rat.sub Rat.neg Rat.inv Rat.div Rat.normalize Rat.blt mkRat

namespace MarketShares

/-- Decides whether the character list `n` is a prefix of `l`. -/
def isPrefixL : List Char → List Char → Bool
  | [], _ => true
  | _ :: _, [] => false
  | a :: as, b :: bs => a == b && isPrefixL as bs

/-- Decides whether `n` occurs as a contiguous sublist of the second list.
Models JavaScript `String.prototype.includes`. -/
def hasSubL (n : List Char) : List Char → Bool
  | [] => n.isEmpty
  | c :: t => isPrefixL n (c :: t) || hasSubL n t

/-- JavaScript `hay.includes(needle)`. -/
def containsStr (hay needle : String) : Bool :=
  hasSubL needle.data hay.data

/-- Models JavaScript `s.replace(/[..]/g, '')`: removes every occurrence of
the listed characters. -/
def stripChars (s : String) (bad : List Char) : String :=
  String.mk (s.data.filter (fun c => !(bad.contains c)))

/-- JavaScript `String.prototype.toLowerCase`, on the ASCII header texts the
detector compares. -/
def toLowerJS (s : String) : String :=
  String.mk (s.data.map Char.toLower)

/-- JavaScript `String.prototype.trim`: strip whitespace from both ends. -/
def trimJS (s : String) : String :=
  String.mk (((s.data.dropWhile Char.isWhitespace).reverse.dropWhile Char.isWhitespace).reverse)

/-- Numeric value of a decimal digit character. -/
def digitVal (c : Char) : Nat := c.toNat - 48

/-- Value of a list of decimal digit characters, most significant first. -/
def natOfDigits (l : List Char) : Nat :=
  l.foldl (fun n c => 10 * n + digitVal c) 0

/-- Consumes an optional leading sign, returning the sign and the rest. -/
def splitSign : List Char → (Int × List Char)
  | '-' :: t => (-1, t)
  | '+' :: t => (1, t)
  | l => (1, l)

/-- Ten to a natural power, as a rational. -/
def pow10 : Nat → ℚ
  | 0 => 1
  | n + 1 => 10 * pow10 n

/-- Ten to an integer power, as a rational. -/
def scale10 (z : Int) : ℚ :=
  if 0 ≤ z then pow10 z.toNat else 1 / pow10 (-z).toNat

/-- Parses the mantissa of a JavaScript float literal: digits, an optional
decimal point and fraction digits.  Returns `none` when no digit is
consumed (JavaScript `NaN`), otherwise the value and the unconsumed rest. -/
def mantissaJS (l : List Char) : Option (ℚ × List Char) :=
  let ip := l.takeWhile Char.isDigit
  let r1 := l.dropWhile Char.isDigit
  match r1 with
  | '.' :: t =>
      let fp := t.takeWhile Char.isDigit
      let r2 := t.dropWhile Char.isDigit
      if ip.isEmpty && fp.isEmpty then none
      else some ((natOfDigits ip : ℚ) + (natOfDigits fp : ℚ) / pow10 fp.length, r2)
  | _ => if ip.isEmpty then none else some ((natOfDigits ip : ℚ), r1)

/-- Parses an exponent suffix `e±ddd` directly after the mantissa; yields the
scale factor, `1` when the suffix is absent or incomplete (JavaScript
`parseFloat` ignores a dangling `e`). -/
def expFactor (l : List Char) : ℚ :=
  match l with
  | 'e' :: t =>
      let (sg, t2) := splitSign t
      let ds := t2.takeWhile Char.isDigit
      if ds.isEmpty then 1 else scale10 (sg * (natOfDigits ds : Int))
  | 'E' :: t =>
      let (sg, t2) := splitSign t
      let ds := t2.takeWhile Char.isDigit
      if ds.isEmpty then 1 else scale10 (sg * (natOfDigits ds : Int))
  | _ => 1

/-- JavaScript `parseFloat`: skip leading whitespace, optional sign, decimal
mantissa, optional exponent; trailing garbage is ignored; `none` models
`NaN`.  (The textual forms `Infinity`/`NaN` do not occur in spreadsheet
cells and are not modelled.) -/
def parseFloatJS (s : String) : Option ℚ :=
  let l := s.data.dropWhile Char.isWhitespace
  let (sg, l1) := splitSign l
  match mantissaJS l1 with
  | none => none
  | some (m, rest) => some ((sg : ℚ) * m * expFactor rest)

/-- JavaScript `parseInt(s, 10)`: skip leading whitespace, optional sign,
then decimal digits; `none` models `NaN`. -/
def parseIntJS (s : String) : Option Int :=
  let l := s.data.dropWhile Char.isWhitespace
  let (sg, l1) := splitSign l
  let ds := l1.takeWhile Char.isDigit
  if ds.isEmpty then none else some (sg * (natOfDigits ds : Int))

/-- Rounding to the nearest integer with ties toward plus infinity, i.e.
`⌊q + 1/2⌋`, which is how JavaScript `toFixed` picks among two nearest
candidates. -/
def roundJS (q : ℚ) : Int :=
  Int.fdiv (q + 1 / 2).num ((q + 1 / 2).den : Int)

/-- JavaScript `x.toFixed(1)` reinterpreted as a number: round to one decimal
place. -/
def round1 (q : ℚ) : ℚ :=
  ((roundJS (10 * q) : Int) : ℚ) / 10

/-- JavaScript `x.toFixed(0)` reinterpreted as a number. -/
def round0 (q : ℚ) : ℚ :=
  ((roundJS q : Int) : ℚ)

/-- The apostrophe character, kept out of string literals. -/
def apos : String := String.singleton (Char.ofNat 39)

/-- The literal `Sotheby's` as used by `label.includes("Sotheby's")`. -/
def sothebysLit : String := "Sotheby" ++ apos ++ "s"

/-- The canonical subject label the normalizer rewrites matching brands to. -/
def canonSotheby : String := "Russ Lyon Sotheby" ++ apos ++ "s International Realty"

/-- A spreadsheet cell: absent (JavaScript `undefined`), text, or number. -/
inductive Cell where
  | absent : Cell
  | str : String → Cell
  | num : ℚ → Cell
deriving DecidableEq, Repr

/-- A row of cells; `Table` is the `sheet_to_json(..., {header: 1})` output. -/
abbrev Row := List Cell

/-- Tabular input: an ordered sequence of rows. -/
abbrev Table := List Row

/-- Models `row[i]` with JavaScript semantics: any out-of-range (or negative)
index reads as `undefined`, i.e. `absent`. -/
def getCell (row : Row) (i : Int) : Cell :=
  if i < 0 then Cell.absent else row.getD i.toNat Cell.absent

/-- JavaScript truthiness of a cell: `undefined`, `''` and `0` are falsy. -/
def truthyCell : Cell → Bool
  | Cell.absent => false
  | Cell.str s => s != ""
  | Cell.num q => q != 0

/-- JavaScript `value.toString()` on a cell.  Numeric rendering is idealized
(only the brand column ever goes through this, and every claim uses textual
brand cells). -/
def cellText : Cell → String
  | Cell.str s => s
  | Cell.num q => toString q
  | Cell.absent => "undefined"

/-- The resolved column indices of `extractMarketShareData` (the mutable
`*ColIndex` variables of lines 90-98).  `closedList` embeds the source's
`closedListRatioColIndex`.  Indices are integers because the two optional
columns use the `-1` sentinel and are then read through `row[-1]`. -/
structure ColumnMap where
  brand : Int
  marketShare : Int
  totalSales : Int
  avgPrice : Int
  daysOnMarket : Int
  pricePerSqft : Int
  closedList : Int
  totalOffices : Int
  contributingAgents : Int
deriving DecidableEq, Repr

/-- The positional defaults of lines 90-98. -/
def defaultMap : ColumnMap :=
  { brand := 1, marketShare := 12, totalSales := 6, avgPrice := 10,
    daysOnMarket := 9, pricePerSqft := -1, closedList := -1,
    totalOffices := 19, contributingAgents := 19 }

/-- Priority rule for column I (lines 106-112): the cell at index 8 is a
non-empty string equal to `mkt %` (lower-cased) or containing both
`market` and `%`. -/
def rule2Bool (row : Row) : Bool :=
  match getCell row 8 with
  | Cell.str s =>
      (s != "") && ((toLowerJS s) == "mkt %" ||
        (containsStr (toLowerJS s) "market" && containsStr (toLowerJS s) "%"))
  | _ => false

/-- Priority rule for column M (lines 115-121): the cell at index 12 is a
non-empty string containing one of the three volume-column phrases. -/
def rule3Bool (row : Row) : Bool :=
  match getCell row 12 with
  | Cell.str s =>
      (s != "") && (containsStr (toLowerJS s) "$ vol per prod agent" ||
        containsStr (toLowerJS s) "vol per prod" ||
        containsStr (toLowerJS s) "per agent")
  | _ => false

/-- The cell at index 8 is exactly the text `Mkt %` up to case: the instance
of the column-I priority rule singled out by the spec. -/
def mktPctAt8 (row : Row) : Bool :=
  match getCell row 8 with
  | Cell.str s => (toLowerJS s) == "mkt %"
  | _ => false

/-- Applies the column-I priority rule to the map. -/
def applyRule2 (m : ColumnMap) (row : Row) : ColumnMap :=
  if rule2Bool row then { m with marketShare := 8 } else m

/-- Applies the column-M priority rule; guarded by
`marketShareColIndex !== 8` in the source. -/
def applyRule3 (m : ColumnMap) (row : Row) : ColumnMap :=
  if m.marketShare ≠ 8 ∧ rule3Bool row then { m with marketShare := 12 } else m

/-- Header rule for the brand column (lines 130-134). -/
def brandRule (t : String) : Bool :=
  containsStr t "brand" || containsStr t "company" || containsStr t "brokerage" ||
    containsStr t "firm" || t == "name"

/-- Header rule for the total-sales column (line 140). -/
def totalSalesRule (t : String) : Bool :=
  t == "total #" || (containsStr t "total" && containsStr t "#")

/-- Header rule for the average-price column (lines 146-148). -/
def avgPriceRule (t : String) : Bool :=
  t == "avg price" || (containsStr t "avg" && containsStr t "price") ||
    (containsStr t "average" && containsStr t "sales")

/-- Header rule for the days-on-market column (lines 154-156). -/
def domRule (t : String) : Bool :=
  t == "dom" || containsStr t "days on market" ||
    (containsStr t "days" && containsStr t "market")

/-- Header rule for the price-per-square-foot column (lines 162-166). -/
def sqftRule (t : String) : Bool :=
  t == "price/sqft" || containsStr t "price per sq" || containsStr t "price/sq" ||
    containsStr t "price per foot" || (containsStr t "price" && containsStr t "sqft")

/-- Header rule for the closed/list-price column (lines 172-174). -/
def closedListRule (t : String) : Bool :=
  t == "closed/list price" || (containsStr t "closed" && containsStr t "list") ||
    (containsStr t "sale" && containsStr t "list")

/-- Header rule for the total-offices column (lines 180-182). -/
def officesRule (t : String) : Bool :=
  t == "# offices" || t == "total offices" ||
    (containsStr t "office" && (containsStr t "total" || containsStr t "#"))

/-- Header rule for the contributing-agents column (lines 188-189). -/
def agentsRule (t : String) : Bool :=
  t == "contributing agents" || (containsStr t "contributing" && containsStr t "agent")

/-- Exact market-share header texts (line 197). -/
def msExact (t : String) : Bool :=
  t == "market share (#)" || t == "market share (%)"

/-- Mid-priority market-share header substrings (line 200). -/
def msMid (t : String) : Bool :=
  containsStr t "market share" || containsStr t "mkt share"

/-- Generic market-share header substrings (lines 203-205). -/
def msAny (t : String) : Bool :=
  containsStr t "share" || containsStr t "percentage" || containsStr t "%"

/-- The eight independent per-cell header rules of the generic scan (lines
130-192); each rule reads only the lower-cased cell text `t` and writes
its own field, so the sequential source updates commute with this
simultaneous record update.  `marketShare` is not touched here. -/
def applyCellFields (m : ColumnMap) (j : Int) (t : String) : ColumnMap :=
  { m with
    brand := if brandRule t then j else m.brand,
    totalSales := if totalSalesRule t then j else m.totalSales,
    avgPrice := if avgPriceRule t then j else m.avgPrice,
    daysOnMarket := if domRule t then j else m.daysOnMarket,
    pricePerSqft := if sqftRule t then j else m.pricePerSqft,
    closedList := if closedListRule t then j else m.closedList,
    totalOffices := if officesRule t then j else m.totalOffices,
    contributingAgents := if agentsRule t then j else m.contributingAgents }

/-- The guarded generic market-share detection (lines 195-209): only applies
when the current index is neither 8 nor 12, with exact matches taking
precedence over `market share` substrings, which take precedence over the
generic `share`/`percentage`/`%` substrings. -/
def applyCellMS (m : ColumnMap) (j : Int) (t : String) : ColumnMap :=
  if m.marketShare ≠ 8 ∧ m.marketShare ≠ 12 then
    if msExact t then { m with marketShare := j }
    else if msMid t then { m with marketShare := j }
    else if msAny t then { m with marketShare := j }
    else m
  else m

/-- One step of the inner cell scan (lines 124-211): non-empty string cells
are lower-cased and run through the field rules, then the guarded
market-share rules. -/
def applyCell (m : ColumnMap) (jc : Nat × Cell) : ColumnMap :=
  match jc.2 with
  | Cell.str s =>
      if s = "" then m
      else applyCellMS (applyCellFields m (jc.1 : Int) (toLowerJS s)) (jc.1 : Int) (toLowerJS s)
  | _ => m

/-- Processing of one scanned row (lines 101-212): the two priority rules,
then the generic left-to-right cell scan. -/
def applyRow (m : ColumnMap) (row : Row) : ColumnMap :=
  (row.enum).foldl applyCell (applyRule3 (applyRule2 m row) row)

/-- The Schema Detector (lines 90-212): fold the per-row update over the
first ten rows, starting from the positional defaults. -/
def detectColumns (data : Table) : ColumnMap :=
  (data.take 10).foldl applyRow defaultMap

/-- A normalized record: trimmed brand text plus the market share rounded to
one decimal place (lines 337-340). -/
structure BrokerageRecord where
  brand : String
  marketShare : ℚ
deriving DecidableEq, Repr

/-- The dynamic type of the `marketShare` variable after coercion (lines
240-261): a JavaScript number, the string produced by `toFixed(1)` in the
over-1000 branch, or `NaN`. -/
inductive ShareVal where
  | num : ℚ → ShareVal
  | strOfFixed : ℚ → ShareVal
  | nan : ShareVal
deriving DecidableEq, Repr

/-- The characters stripped from textual share and ratio cells. -/
def pctChars : List Char := ['%', '$', ',']

/-- The characters stripped from textual count and price cells. -/
def moneyChars : List Char := [',', '$']

/-- The range adjustment of lines 251-261: values over 100 are only warned
about; values over 1000 are divided by 1000 and passed through
`toFixed(1)`, which yields a string. -/
def adjustShare (v : ℚ) : ShareVal :=
  if 100 < v then
    (if 1000 < v then ShareVal.strOfFixed (round1 (v / 1000)) else ShareVal.num v)
  else ShareVal.num v

/-- Market-share coercion (lines 240-261): textual cells are stripped of
`%`, `$`, `,` and parsed with `parseFloat`; numeric cells below 1 are
multiplied by 100; an absent cell stays `undefined`, which `isNaN`
classifies as `NaN`. -/
def coerceShare : Cell → ShareVal
  | Cell.str s =>
      match parseFloatJS (stripChars s pctChars) with
      | some v => adjustShare v
      | none => ShareVal.nan
  | Cell.num v => adjustShare (if v < 1 then v * 100 else v)
  | Cell.absent => ShareVal.nan

/-- The running state of the extraction loop: the accepted records and the
seven subject-metric variables of lines 217-226.  `closedListPct` embeds
the source's `closedListRatio` variable. -/
structure RState where
  brokerages : List BrokerageRecord
  totalSales : ℚ
  avgPrice : ℚ
  daysOnMarket : ℚ
  pricePerSqft : ℚ
  closedListPct : ℚ
  totalOffices : ℚ
  contributingAgents : ℚ
deriving DecidableEq, Repr

/-- The initial state (all metric variables zero, no records). -/
def initState : RState :=
  { brokerages := [], totalSales := 0, avgPrice := 0, daysOnMarket := 0,
    pricePerSqft := 0, closedListPct := 0, totalOffices := 0,
    contributingAgents := 0 }

/-- One count/price metric update (e.g. lines 267-273): an absent cell is
skipped by the `undefined` guard; a string is stripped of `,`/`$` and
parsed, keeping the old value on `NaN`; a number is taken as is. -/
def updNum (cur : ℚ) (c : Cell) : ℚ :=
  match c with
  | Cell.absent => cur
  | Cell.str s =>
      match parseFloatJS (stripChars s moneyChars) with
      | some v => v
      | none => cur
  | Cell.num v => v

/-- The closed/list-ratio update (lines 303-312): strips `%`/`$`/`,`, and a
parsed value below 1 is rescaled to a percentage. -/
def updRatioPct (cur : ℚ) (c : Cell) : ℚ :=
  match c with
  | Cell.absent => cur
  | Cell.str s =>
      match parseFloatJS (stripChars s pctChars) with
      | some v => if v < 1 then v * 100 else v
      | none => cur
  | Cell.num v => if v < 1 then v * 100 else v

/-- The offices/agents update (lines 315-330): strings go through
`parseInt(_, 10)`; numbers are taken as is. -/
def updInt (cur : ℚ) (c : Cell) : ℚ :=
  match c with
  | Cell.absent => cur
  | Cell.str s =>
      match parseIntJS (stripChars s moneyChars) with
      | some n => (n : ℚ)
      | none => cur
  | Cell.num v => v

/-- The subject-metric extraction block (lines 263-333), run when the brand
contains `sotheby` and the row is long enough. -/
def sothebyUpdate (cm : ColumnMap) (st : RState) (row : Row) : RState :=
  { st with
    totalSales := updNum st.totalSales (getCell row cm.totalSales),
    avgPrice := updNum st.avgPrice (getCell row cm.avgPrice),
    daysOnMarket := updNum st.daysOnMarket (getCell row cm.daysOnMarket),
    pricePerSqft := updNum st.pricePerSqft (getCell row cm.pricePerSqft),
    closedListPct := updRatioPct st.closedListPct (getCell row cm.closedList),
    totalOffices := updInt st.totalOffices (getCell row cm.totalOffices),
    contributingAgents := updInt st.contributingAgents (getCell row cm.contributingAgents) }

/-- The error thrown at line 339 when the coerced share is the string left
behind by the over-1000 branch: `String.prototype` has no `toFixed`. -/
def typeErrorMsg : String := "TypeError: marketShare.toFixed is not a function"

/-- One iteration of the extraction loop (lines 229-342).  Short rows and
falsy brands are skipped; the subject-metric block runs before the push;
a `NaN` share skips the push; a share that was turned into a string by the
over-1000 branch reaches `marketShare.toFixed(1)` and throws. -/
def processRow (cm : ColumnMap) (st : RState) (row : Row) : Except String RState :=
  if (row.length : Int) ≤ max cm.brand cm.marketShare then Except.ok st
  else
    let brandCell := getCell row cm.brand
    if truthyCell brandCell = false then Except.ok st
    else
      let b := cellText brandCell
      let st1 :=
        if containsStr (toLowerJS b) "sotheby" ∧
            max cm.totalSales (max cm.avgPrice cm.daysOnMarket) < (row.length : Int) then
          sothebyUpdate cm st row
        else st
      match coerceShare (getCell row cm.marketShare) with
      | ShareVal.num v =>
          Except.ok { st1 with
            brokerages := st1.brokerages ++ [{ brand := trimJS b, marketShare := round1 v }] }
      | ShareVal.strOfFixed _ => Except.error typeErrorMsg
      | ShareVal.nan => Except.ok st1

/-- Runs the extraction loop over the data rows, stopping at the first
thrown error (an uncaught exception aborts the whole invocation). -/
def runRows (cm : ColumnMap) : RState → List Row → Except String RState
  | st, [] => Except.ok st
  | st, r :: rs =>
      match processRow cm st r with
      | Except.ok st2 => runRows cm st2 rs
      | Except.error e => Except.error e

/-- The descending comparison used by `sort((a, b) => b.marketShare -
a.marketShare)`: `a` may stay before `b` when its share is at least
`b`'s. -/
def shareGE (a b : BrokerageRecord) : Prop :=
  b.marketShare ≤ a.marketShare

instance : DecidableRel shareGE :=
  fun a b => inferInstanceAs (Decidable (b.marketShare ≤ a.marketShare))

instance : IsTotal BrokerageRecord shareGE :=
  ⟨fun a b => le_total b.marketShare a.marketShare⟩

instance : IsTrans BrokerageRecord shareGE :=
  ⟨fun _ _ _ h1 h2 => le_trans h2 h1⟩

/-- JavaScript `Array.prototype.sort` with the descending share comparator:
a stable sort, modelled by stable insertion sort. -/
def sortDesc (l : List BrokerageRecord) : List BrokerageRecord :=
  List.insertionSort shareGE l

/-- The brand-normalization pass of lines 352-367: the lower-cased original
brand is computed once; a `sotheby` match rewrites to the canonical label,
then a `homesmart` match rewrites to `HomeSmart`. -/
def renameBrand (r : BrokerageRecord) : BrokerageRecord :=
  let bl := toLowerJS r.brand
  let r1 := if containsStr bl "sotheby" then { r with brand := canonSotheby } else r
  if containsStr bl "homesmart" || containsStr bl "home smart" then
    { r1 with brand := "HomeSmart" }
  else r1

/-- Looks up the share of the first record whose brand satisfies `p`, `0`
when none does.  This embeds the `labels.findIndex(...)` followed by
`dataValues[idx]` on the two parallel `map`s of the same record list
(lines 397-403). -/
def findShare (p : String → Bool) (l : List BrokerageRecord) : ℚ :=
  match l.find? (fun r => p r.brand) with
  | some r => r.marketShare
  | none => 0

/-- The subject-metrics object of lines 428-444.  `averagePrice` carries the
numeric value that the currency formatter renders; `daysOnMarket` goes
through `toFixed(1)`; the two optional fields are present only when
positive, carrying the value their formatter renders.  `closedListPct`
embeds the source's `closedListRatio` field. -/
structure AdditionalMetrics where
  totalSales : ℚ
  averagePrice : ℚ
  daysOnMarket : ℚ
  totalOffices : ℚ
  contributingAgents : ℚ
  pricePerSqft : Option ℚ
  closedListPct : Option ℚ
deriving DecidableEq, Repr

/-- The value returned to the caller: chart labels and values, the numeric
quantities rendered into the insight strings (lines 397-418), and the
additional metrics. -/
structure RankedOutput where
  labels : List String
  values : List ℚ
  sothebysShare : ℚ
  homeSmartShare : ℚ
  sharePointDiff : ℚ
  top3Control : ℚ
  additionalMetrics : AdditionalMetrics
deriving DecidableEq, Repr

/-- Steps 1-3 of the post-processing (lines 348-370): sort descending, run
the brand-normalization pass, sort descending again. -/
def rankedList (st : RState) : List BrokerageRecord :=
  sortDesc (List.map renameBrand (sortDesc st.brokerages))

/-- The post-processing of lines 344-456: sort, rename, re-sort, truncate to
the top ten, and derive the insight quantities and additional metrics. -/
def buildOutput (st : RState) : RankedOutput :=
  { labels := ((rankedList st).take 10).map (fun r => r.brand),
    values := ((rankedList st).take 10).map (fun r => r.marketShare),
    sothebysShare := findShare (fun l => containsStr l sothebysLit) ((rankedList st).take 10),
    homeSmartShare := findShare (fun l => l == "HomeSmart") ((rankedList st).take 10),
    sharePointDiff := round1 (findShare (fun l => containsStr l sothebysLit) ((rankedList st).take 10) -
      findShare (fun l => l == "HomeSmart") ((rankedList st).take 10)),
    top3Control := round1 ((((rankedList st).take 3).map (fun r => r.marketShare)).sum),
    additionalMetrics :=
      { totalSales := st.totalSales,
        averagePrice := st.avgPrice,
        daysOnMarket := round1 st.daysOnMarket,
        totalOffices := st.totalOffices,
        contributingAgents := st.contributingAgents,
        pricePerSqft := if 0 < st.pricePerSqft then some (round0 st.pricePerSqft) else none,
        closedListPct := if 0 < st.closedListPct then some (round1 st.closedListPct) else none } }

/-- The full Record Normalizer & Ranker, `extractMarketShareData` (lines
88-457): detect the columns, run the extraction loop over the rows after
the header, then build the ranked output.  An error is an uncaught
JavaScript exception, which rejects the whole invocation. -/
def extractMarketShareData (data : Table) : Except String RankedOutput :=
  match runRows (detectColumns data) initState (data.drop 1) with
  | Except.error e => Except.error e
  | Except.ok st => Except.ok (buildOutput st)

/-- Stated from the spec's words, for comparison with the code: the value
paired with the first label satisfying `p` in the parallel label/value
sequences of a ranked output. -/
def pairedShare (p : String → Bool) (labels : List String) (values : List ℚ) : ℚ :=
  match (labels.zip values).find? (fun q => p q.1) with
  | some q => q.2
  | none => 0

/-- A run of `n` absent cells, for building concrete test rows. -/
def padCells (n : Nat) : Row := List.replicate n Cell.absent

/-- A data row in the default layout: brand text in column B (index 1) and
the market-share cell in column M (index 12). -/
def mkRow (b : String) (v : Cell) : Row :=
  padCells 1 ++ [Cell.str b] ++ padCells 10 ++ [v]

/-- The output produced when no data row survives: empty lists and all
metrics at their zero defaults, optional fields omitted. -/
def emptyOutput : RankedOutput :=
  { labels := [], values := [], sothebysShare := 0, homeSmartShare := 0,
    sharePointDiff := 0, top3Control := 0,
    additionalMetrics :=
      { totalSales := 0, averagePrice := 0, daysOnMarket := 0,
        totalOffices := 0, contributingAgents := 0,
        pricePerSqft := none, closedListPct := none } }

/-- Failing input for the over-1000 rescale: a single data row whose share
cell holds the raw value 1560. -/
def t1 : Table := [[], mkRow "Acme" (Cell.num 1560)]

/-- Failing input for the never-raises contract: a textual share cell that
strips and parses to 2000. -/
def t2 : Table := [[], mkRow "BrokerCo" (Cell.str "2,000")]

/-- Three records with shares 10, 5, 3: total 18, so the normalized top-3
concentration of the claim (100) differs from the raw sum (18). -/
def t3 : Table :=
  [[], mkRow "Alpha" (Cell.num 10), mkRow "Beta" (Cell.num 5), mkRow "Gamma" (Cell.num 3)]

/-- The output of `extractMarketShareData t3`. -/
def o3 : RankedOutput :=
  { labels := ["Alpha", "Beta", "Gamma"], values := [10, 5, 3],
    sothebysShare := 0, homeSmartShare := 0, sharePointDiff := 0,
    top3Control := 18,
    additionalMetrics :=
      { totalSales := 0, averagePrice := 0, daysOnMarket := 0,
        totalOffices := 0, contributingAgents := 0,
        pricePerSqft := none, closedListPct := none } }

/-- A ranking whose highest-ranked non-subject record (share 15) is not the
`HomeSmart` record (share 5). -/
def t4 : Table :=
  [[], mkRow "Pinnacle Sotheby Realty" (Cell.num 20), mkRow "Keller" (Cell.num 15),
    mkRow "HomeSmart" (Cell.num 5)]

/-- The output of `extractMarketShareData t4`. -/
def o4 : RankedOutput :=
  { labels := [canonSotheby, "Keller", "HomeSmart"], values := [20, 15, 5],
    sothebysShare := 20, homeSmartShare := 5, sharePointDiff := 15,
    top3Control := 40,
    additionalMetrics :=
      { totalSales := 0, averagePrice := 0, daysOnMarket := 0,
        totalOffices := 0, contributingAgents := 0,
        pricePerSqft := none, closedListPct := none } }

/-- A header whose only market-share-like text is the generic `Market Share`
at column 3, with no priority-rule text at columns 8 or 12. -/
def t5 : Table := [[Cell.str "", Cell.str "Brand", Cell.str "", Cell.str "Market Share"]]

/-- Two records in the default layout, for the output-invariant witness. -/
def t6 : Table := [[], mkRow "Alpha" (Cell.num 10), mkRow "Beta" (Cell.num 5)]

/-- The output of `extractMarketShareData t6`. -/
def o6 : RankedOutput :=
  { labels := ["Alpha", "Beta"], values := [10, 5],
    sothebysShare := 0, homeSmartShare := 0, sharePointDiff := 0,
    top3Control := 15,
    additionalMetrics :=
      { totalSales := 0, averagePrice := 0, daysOnMarket := 0,
        totalOffices := 0, contributingAgents := 0,
        pricePerSqft := none, closedListPct := none } }

/-- A header carrying `Mkt %` at index 8 and the volume-column phrase at
index 12 in the same row. -/
def t7 : Table :=
  [padCells 8 ++ [Cell.str "Mkt %"] ++ padCells 3 ++ [Cell.str "$ Vol Per Prod Agent"]]

/-- A header-only input: zero data rows after the header. -/
def t9 : Table := [[Cell.str "Header"]]

/-- A column map whose subject-guard columns (6-th, 10-th, 9-th in the
source defaults) are remapped to index 9 while `pricePerSqft` points at
index 2, inside the witness row. -/
def cm10 : ColumnMap :=
  { brand := 0, marketShare := 1, totalSales := 9, avgPrice := 9,
    daysOnMarket := 9, pricePerSqft := 2, closedList := -1,
    totalOffices := 19, contributingAgents := 19 }

/-- A subject row of length 3: long enough for brand and share, shorter than
the subject-metric guard, with a live numeric cell under `pricePerSqft`. -/
def row10 : Row := [Cell.str "Sotheby", Cell.num 5, Cell.num 77]

end MarketShares

deriving instance DecidableEq for Except

namespace MarketShares

theorem applyCellFields_marketShare (m : ColumnMap) (j : Int) (t : String) :
    (applyCellFields m j t).marketShare = m.marketShare := rfl

theorem applyCellMS_pres (m : ColumnMap) (j : Int) (t : String)
    (h : m.marketShare = 8 ∨ m.marketShare = 12) :
    (applyCellMS m j t).marketShare = m.marketShare := by
  have hg : ¬(m.marketShare ≠ 8 ∧ m.marketShare ≠ 12) := by
    rcases h with h | h <;> simp [h]
  simp [applyCellMS, hg]

theorem applyCell_pres (m : ColumnMap) (jc : Nat × Cell)
    (h : m.marketShare = 8 ∨ m.marketShare = 12) :
    (applyCell m jc).marketShare = m.marketShare := by
  rcases jc with ⟨j, c⟩
  cases c with
  | absent => rfl
  | num q => rfl
  | str s =>
      by_cases hs : s = ""
      · simp [applyCell, hs]
      · have h2 : (applyCellFields m (j : Int) (toLowerJS s)).marketShare = 8 ∨
            (applyCellFields m (j : Int) (toLowerJS s)).marketShare = 12 := by
          rw [applyCellFields_marketShare]; exact h
        simp only [applyCell, if_neg hs]
        rw [applyCellMS_pres _ _ _ h2, applyCellFields_marketShare]

theorem foldl_applyCell_pres (l : List (Nat × Cell)) (m : ColumnMap)
    (h : m.marketShare = 8 ∨ m.marketShare = 12) :
    (l.foldl applyCell m).marketShare = m.marketShare := by
  induction l generalizing m with
  | nil => rfl
  | cons a t ih =>
      have hp := applyCell_pres m a h
      have h2 : (applyCell m a).marketShare = 8 ∨ (applyCell m a).marketShare = 12 := by
        rw [hp]; exact h
      rw [List.foldl_cons, ih _ h2, hp]

theorem applyRule2_ms8 (m : ColumnMap) (row : Row) (h : m.marketShare = 8) :
    (applyRule2 m row).marketShare = 8 := by
  unfold applyRule2; split <;> simp [h]

theorem applyRule3_ms8 (m : ColumnMap) (row : Row) (h : m.marketShare = 8) :
    (applyRule3 m row).marketShare = 8 := by
  simp [applyRule3, h]

theorem applyRow_ms8 (m : ColumnMap) (row : Row) (h : m.marketShare = 8) :
    (applyRow m row).marketShare = 8 := by
  unfold applyRow
  have h2 := applyRule2_ms8 m row h
  have h3 := applyRule3_ms8 _ row h2
  rw [foldl_applyCell_pres _ _ (Or.inl h3), h3]

theorem mktPctAt8_rule2 (row : Row) (h : mktPctAt8 row = true) :
    rule2Bool row = true := by
  unfold mktPctAt8 at h
  unfold rule2Bool
  cases hgc : getCell row 8 with
  | absent => rw [hgc] at h; simp at h
  | num q => rw [hgc] at h; simp at h
  | str s =>
      rw [hgc] at h
      have hlow : toLowerJS s = "mkt %" := by
        simpa using h
      have hne : s ≠ "" := by
        intro he
        rw [he] at hlow
        exact absurd hlow (by decide)
      simp [hlow, hne]

theorem applyRow_mkt (m : ColumnMap) (row : Row) (h : mktPctAt8 row = true) :
    (applyRow m row).marketShare = 8 := by
  unfold applyRow
  have h2 : (applyRule2 m row).marketShare = 8 := by
    simp [applyRule2, mktPctAt8_rule2 row h]
  have h3 := applyRule3_ms8 _ row h2
  rw [foldl_applyCell_pres _ _ (Or.inl h3), h3]

theorem foldl_applyRow_ms8 (l : Table) (m : ColumnMap) (h : m.marketShare = 8) :
    (l.foldl applyRow m).marketShare = 8 := by
  induction l generalizing m with
  | nil => exact h
  | cons r t ih => rw [List.foldl_cons]; exact ih _ (applyRow_ms8 m r h)

theorem foldl_applyRow_mkt (l : Table) (m : ColumnMap)
    (h : ∃ row ∈ l, mktPctAt8 row = true) :
    (l.foldl applyRow m).marketShare = 8 := by
  induction l generalizing m with
  | nil => rcases h with ⟨r, hr, _⟩; cases hr
  | cons r t ih =>
      rw [List.foldl_cons]
      rcases h with ⟨r2, hr2, hm⟩
      rcases List.mem_cons.mp hr2 with he | ht
      · subst he; exact foldl_applyRow_ms8 t _ (applyRow_mkt m r2 hm)
      · exact ih _ ⟨r2, ht, hm⟩

/-- C7: whenever some row among the first ten carries the text `Mkt %`
(case-insensitively) at column index 8, the Schema Detector selects index 8
as the market-share column, regardless of the contents of column 12. -/
theorem c7_mkt_priority (data : Table)
    (h : ∃ row ∈ data.take 10, mktPctAt8 row = true) :
    (detectColumns data).marketShare = 8 :=
  foldl_applyRow_mkt _ _ h

/-- C7 witness: on the concrete header carrying `Mkt %` at index 8 and the
volume phrase at index 12, the detector picks 8. -/
theorem c7_witness :
    (∃ row ∈ t7.take 10, mktPctAt8 row = true) ∧ (detectColumns t7).marketShare = 8 :=
  ⟨by decide, c7_mkt_priority t7 (by decide)⟩

theorem applyRow_ms12 (m : ColumnMap) (row : Row) (h : m.marketShare = 12)
    (hr : rule2Bool row = false) :
    (applyRow m row).marketShare = 12 := by
  unfold applyRow
  have h2 : applyRule2 m row = m := by simp [applyRule2, hr]
  rw [h2]
  have h3 : (applyRule3 m row).marketShare = 12 := by
    unfold applyRule3; split
    · rfl
    · exact h
  rw [foldl_applyCell_pres _ _ (Or.inr h3), h3]

theorem foldl_applyRow_ms12 (l : Table) (m : ColumnMap) (h12 : m.marketShare = 12)
    (h : ∀ row ∈ l, rule2Bool row = false) :
    (l.foldl applyRow m).marketShare = 12 := by
  induction l generalizing m with
  | nil => exact h12
  | cons r t ih =>
      rw [List.foldl_cons]
      exact ih _ (applyRow_ms12 m r h12 (h r (List.mem_cons_self r t)))
        (fun row hr => h row (List.mem_cons_of_mem _ hr))

/-- C5 counterexample: on `t5` the first ten rows contain no text matching
the priority rules for columns 8 or 12, the header holds the generic text
`Market Share` at column 3, yet the detector leaves the market-share column
at the positional default 12 rather than setting it to 3: the generic
market-share rules never fire. -/
theorem c5_counterexample :
    (∀ row ∈ t5.take 10, rule2Bool row = false ∧ rule3Bool row = false) ∧
    getCell (t5.headD []) 3 = Cell.str "Market Share" ∧
    msMid (toLowerJS "Market Share") = true ∧
    (detectColumns t5).marketShare = 12 ∧ (12 : Int) ≠ 3 := by
  refine ⟨by decide, by decide, by decide, by decide, by decide⟩

/-- C5 amended: when no row among the first ten matches the column-8
priority rule, the detector reports market-share column 12 — the default.
The generic header pass requires the current index to differ from both 8
and 12, and the positional default is 12, so the generic market-share rules
are unreachable and the header match at `j` is ignored. -/
theorem c5_generic_locked (data : Table)
    (h : ∀ row ∈ data.take 10, rule2Bool row = false) :
    (detectColumns data).marketShare = 12 :=
  foldl_applyRow_ms12 _ _ rfl h

/-- C5 witness: instantiated at the concrete table `t5`. -/
theorem c5_witness :
    (∀ row ∈ t5.take 10, rule2Bool row = false) ∧ (detectColumns t5).marketShare = 12 :=
  ⟨by decide, c5_generic_locked t5 (by decide)⟩

theorem rankedList_sorted (st : RState) : List.Pairwise shareGE (rankedList st) :=
  List.sorted_insertionSort shareGE _

theorem take10_sorted (st : RState) : List.Pairwise shareGE ((rankedList st).take 10) :=
  List.Pairwise.sublist (List.take_sublist 10 _) (rankedList_sorted st)

theorem extract_ok_buildOutput (data : Table) (out : RankedOutput)
    (h : extractMarketShareData data = Except.ok out) :
    ∃ st, out = buildOutput st := by
  unfold extractMarketShareData at h
  cases hr : runRows (detectColumns data) initState (data.drop 1) with
  | error e => rw [hr] at h; cases h
  | ok st =>
      rw [hr] at h
      injection h with h2
      exact ⟨st, h2.symm⟩

theorem buildOutput_invariants (st : RState) :
    (buildOutput st).labels.length = (buildOutput st).values.length ∧
    (buildOutput st).values.length ≤ 10 ∧
    List.Pairwise (· ≥ ·) (buildOutput st).values := by
  refine ⟨by simp [buildOutput], ?_, ?_⟩
  · simp only [buildOutput, List.length_map, List.length_take]
    exact min_le_left ..
  · show List.Pairwise (· ≥ ·) (((rankedList st).take 10).map (fun r => r.marketShare))
    rw [List.pairwise_map]
    exact take10_sorted st

/-- C6: whenever the Ranker returns an output, the label and value sequences
have equal length, that length is at most 10, and the values are
non-increasing. -/
theorem c6_output_invariants (data : Table) (out : RankedOutput)
    (h : extractMarketShareData data = Except.ok out) :
    out.labels.length = out.values.length ∧ out.values.length ≤ 10 ∧
    List.Pairwise (· ≥ ·) out.values := by
  obtain ⟨st, hst⟩ := extract_ok_buildOutput data out h
  rw [hst]
  exact buildOutput_invariants st

/-- C6 witness: instantiated at the concrete table `t6`. -/
theorem c6_witness :
    extractMarketShareData t6 = Except.ok o6 ∧
    (o6.labels.length = o6.values.length ∧ o6.values.length ≤ 10 ∧
      List.Pairwise (· ≥ ·) o6.values) :=
  ⟨by decide, c6_output_invariants t6 o6 (by decide)⟩

/-- C3 counterexample: on `t3` the accepted shares are 10, 5 and 3, so the
normalized concentration of the claim is `round1 (18 / 18 * 100) = 100`,
while the reported metric is the raw sum 18. -/
theorem c3_counterexample :
    extractMarketShareData t3 = Except.ok o3 ∧
    o3.top3Control ≠ round1 ((o3.values.take 3).sum / o3.values.sum * 100) := by
  refine ⟨by decide, by decide⟩

theorem buildOutput_top3 (st : RState) :
    (buildOutput st).top3Control = round1 ((buildOutput st).values.take 3).sum := by
  show round1 ((((rankedList st).take 3).map (fun r => r.marketShare)).sum) =
    round1 (((((rankedList st).take 10).map (fun r => r.marketShare)).take 3).sum)
  rw [← List.map_take, List.take_take]
  norm_num

/-- C3 amended: the top-3 concentration metric reported in the insights is
`round1` of the raw sum of the top three marketShare values; it is never
divided by the total of all accepted shares. -/
theorem c3_top3_raw_sum (data : Table) (out : RankedOutput)
    (h : extractMarketShareData data = Except.ok out) :
    out.top3Control = round1 ((out.values.take 3).sum) := by
  obtain ⟨st, hst⟩ := extract_ok_buildOutput data out h
  rw [hst]
  exact buildOutput_top3 st

/-- C3 witness: instantiated at the concrete table `t3`. -/
theorem c3_witness :
    extractMarketShareData t3 = Except.ok o3 ∧ o3.top3Control = round1 ((o3.values.take 3).sum) :=
  ⟨by decide, c3_top3_raw_sum t3 o3 (by decide)⟩

/-- C4 counterexample: on `t4` the highest-ranked non-subject record is
`Keller` with share 15, so the gap of the claim is `round1 (20 - 15) = 5`;
the code reports 15 because it subtracts the `HomeSmart` share 5. -/
theorem c4_counterexample :
    extractMarketShareData t4 = Except.ok o4 ∧
    o4.sharePointDiff ≠
      round1 (o4.sothebysShare -
        pairedShare (fun l => !(containsStr l sothebysLit)) o4.labels o4.values) := by
  refine ⟨by decide, by decide⟩

theorem pairedShare_eq_findShare (p : String → Bool) (l : List BrokerageRecord) :
    pairedShare p (l.map (fun r => r.brand)) (l.map (fun r => r.marketShare)) =
      findShare p l := by
  unfold pairedShare findShare
  rw [List.zip_map', List.find?_map]
  have hp : ((fun q : String × ℚ => p q.1) ∘ fun r : BrokerageRecord =>
      (r.brand, r.marketShare)) = fun r => p r.brand := rfl
  rw [hp]
  cases List.find? (fun r => p r.brand) l with
  | none => rfl
  | some r => rfl

theorem buildOutput_gap (st : RState) :
    (buildOutput st).sharePointDiff =
      round1 ((buildOutput st).sothebysShare - (buildOutput st).homeSmartShare) ∧
    (buildOutput st).homeSmartShare =
      pairedShare (fun l => l == "HomeSmart") (buildOutput st).labels (buildOutput st).values := by
  constructor
  · rfl
  · show findShare (fun l => l == "HomeSmart") ((rankedList st).take 10) =
      pairedShare (fun l => l == "HomeSmart")
        (((rankedList st).take 10).map (fun r => r.brand))
        (((rankedList st).take 10).map (fun r => r.marketShare))
    exact (pairedShare_eq_findShare _ _).symm

/-- C4 amended: the reported gap is `round1 (sothebysShare - homeSmartShare)`
where `homeSmartShare` is the share paired with the first label that is
exactly `HomeSmart` (0 when no such label exists); it is not the share of
the highest-ranked non-subject record. -/
theorem c4_gap_homesmart (data : Table) (out : RankedOutput)
    (h : extractMarketShareData data = Except.ok out) :
    out.sharePointDiff = round1 (out.sothebysShare - out.homeSmartShare) ∧
    out.homeSmartShare = pairedShare (fun l => l == "HomeSmart") out.labels out.values := by
  obtain ⟨st, hst⟩ := extract_ok_buildOutput data out h
  rw [hst]
  exact buildOutput_gap st

/-- C4 witness: instantiated at the concrete table `t4`. -/
theorem c4_witness :
    extractMarketShareData t4 = Except.ok o4 ∧
    (o4.sharePointDiff = round1 (o4.sothebysShare - o4.homeSmartShare) ∧
      o4.homeSmartShare = pairedShare (fun l => l == "HomeSmart") o4.labels o4.values) :=
  ⟨by decide, c4_gap_homesmart t4 o4 (by decide)⟩

theorem sothebyUpdate_brokerages (cm : ColumnMap) (st : RState) (row : Row) :
    (sothebyUpdate cm st row).brokerages = st.brokerages := rfl

theorem processRow_push (cm : ColumnMap) (st : RState) (row : Row) (b : String) (v : ℚ)
    (hlen : max cm.brand cm.marketShare < (row.length : Int))
    (hb : getCell row cm.brand = Cell.str b) (hne : b ≠ "")
    (hv : coerceShare (getCell row cm.marketShare) = ShareVal.num v) :
    ∃ st2, processRow cm st row = Except.ok st2 ∧
      st2.brokerages = st.brokerages ++ [{ brand := trimJS b, marketShare := round1 v }] := by
  have hskip : ¬((row.length : Int) ≤ max cm.brand cm.marketShare) := not_le.mpr hlen
  have htr : truthyCell (Cell.str b) = true := by simp [truthyCell, hne]
  unfold processRow
  rw [if_neg hskip]
  simp only [hb, htr, hv]
  by_cases hc : containsStr (toLowerJS (cellText (Cell.str b))) "sotheby" = true ∧
      max cm.totalSales (max cm.avgPrice cm.daysOnMarket) < (row.length : Int)
  · rw [if_pos hc]
    exact ⟨_, rfl, rfl⟩
  · rw [if_neg hc]
    exact ⟨_, rfl, rfl⟩

/-- C8: for an accepted data row whose share cell is a number `v` with
`0 < v < 1`, the produced record's marketShare is `round1 (v * 100)`; and
the textual cell `12.5%` is stripped to `12.5` and coerced to exactly
`25/2`, which rounding leaves unchanged. -/
theorem c8_share_coercion :
    (∀ (cm : ColumnMap) (st : RState) (row : Row) (b : String) (v : ℚ),
      max cm.brand cm.marketShare < (row.length : Int) →
      getCell row cm.brand = Cell.str b → b ≠ "" →
      getCell row cm.marketShare = Cell.num v → 0 < v → v < 1 →
      ∃ st2, processRow cm st row = Except.ok st2 ∧
        st2.brokerages = st.brokerages ++
          [{ brand := trimJS b, marketShare := round1 (v * 100) }]) ∧
    coerceShare (Cell.str "12.5%") = ShareVal.num (25 / 2) ∧
    round1 (25 / 2) = 25 / 2 := by
  refine ⟨?_, by decide, by decide⟩
  intro cm st row b v hlen hb hne hv h0 h1
  have hco : coerceShare (getCell row cm.marketShare) = ShareVal.num (v * 100) := by
    rw [hv]
    show adjustShare (if v < 1 then v * 100 else v) = ShareVal.num (v * 100)
    rw [if_pos h1]
    unfold adjustShare
    have hle : v * 100 ≤ 100 := by nlinarith
    rw [if_neg (not_lt.mpr hle)]
  exact processRow_push cm st row b (v * 100) hlen hb hne hco

/-- C8 witness: instantiated at a concrete row with numeric share `1/2`,
which is accepted with marketShare `round1 (1/2 * 100) = 50`. -/
theorem c8_witness :
    ∃ st2, processRow defaultMap initState (mkRow "Acme" (Cell.num (1 / 2))) = Except.ok st2 ∧
      st2.brokerages = initState.brokerages ++
        [{ brand := trimJS "Acme", marketShare := round1 ((1 / 2) * 100) }] :=
  c8_share_coercion.1 defaultMap initState (mkRow "Acme" (Cell.num (1 / 2))) "Acme" (1 / 2)
    (by decide) (by decide) (by decide) (by decide) (by decide) (by decide)

/-- C10: a data row whose brand contains `sotheby` but whose length is not
greater than the maximum of the totalSales, avgPrice and daysOnMarket
column indices leaves every one of the seven metric variables untouched —
even when other metric columns lie inside the row — while the row still
contributes a record to the ranking. -/
theorem c10_subject_guard (cm : ColumnMap) (st : RState) (row : Row) (b : String) (v : ℚ)
    (hlen : max cm.brand cm.marketShare < (row.length : Int))
    (hb : getCell row cm.brand = Cell.str b) (hne : b ≠ "")
    (hso : containsStr (toLowerJS b) "sotheby" = true)
    (hshort : (row.length : Int) ≤ max cm.totalSales (max cm.avgPrice cm.daysOnMarket))
    (hv : coerceShare (getCell row cm.marketShare) = ShareVal.num v) :
    processRow cm st row = Except.ok
      { st with brokerages := st.brokerages ++
          [{ brand := trimJS b, marketShare := round1 v }] } := by
  have hskip : ¬((row.length : Int) ≤ max cm.brand cm.marketShare) := not_le.mpr hlen
  have htr : truthyCell (Cell.str b) = true := by simp [truthyCell, hne]
  have hcond : ¬(containsStr (toLowerJS (cellText (Cell.str b))) "sotheby" = true ∧
      max cm.totalSales (max cm.avgPrice cm.daysOnMarket) < (row.length : Int)) :=
    fun hc => absurd hc.2 (not_lt.mpr hshort)
  unfold processRow
  rw [if_neg hskip]
  simp only [hb, htr, hv]
  rw [if_neg hcond]
  rfl

/-- C10 witness: the concrete subject row `row10` under the map `cm10`,
whose `pricePerSqft` column points at the live cell 77 inside the row; no
metric is extracted and the record with share 5 is still pushed. -/
theorem c10_witness :
    processRow cm10 initState row10 = Except.ok
      { initState with brokerages := initState.brokerages ++
          [{ brand := trimJS "Sotheby", marketShare := round1 5 }] } :=
  c10_subject_guard cm10 initState row10 "Sotheby" 5
    (by decide) (by decide) (by decide) (by decide) (by decide) (by decide)

/-- C1 (code bug): on the row with raw share 1560 the over-1000 branch turns
the share into the string produced by `toFixed(1)`, and the later
`marketShare.toFixed(1)` call on that string throws, aborting the whole
invocation instead of silently retaining the rescaled record. -/
theorem c1_rescale_throws :
    coerceShare (Cell.num 1560) = ShareVal.strOfFixed (round1 (1560 / 1000)) ∧
    extractMarketShareData t1 = Except.error typeErrorMsg :=
  ⟨by decide, by decide⟩

/-- C2 (code bug): a textual share cell stripping to 2000 makes the Ranker
throw instead of skipping or correcting the row. -/
theorem c2_outOfRange_throws :
    extractMarketShareData t2 = Except.error typeErrorMsg := by decide

/-- C9: with at most a header row and no data rows, the Ranker returns
successfully with empty labels and values and all metrics at their zero
defaults, the two optional fields omitted. -/
theorem c9_empty_input (data : Table) (h : data.length ≤ 1) :
    extractMarketShareData data = Except.ok emptyOutput := by
  cases data with
  | nil => decide
  | cons r rest =>
      cases rest with
      | nil =>
          have h1 : extractMarketShareData [r] = Except.ok (buildOutput initState) := rfl
          rw [h1]
          decide
      | cons b t =>
          simp only [List.length_cons] at h
          omega

/-- C9 witness: instantiated at the concrete header-only table `t9`. -/
theorem c9_witness :
    t9.length ≤ 1 ∧ extractMarketShareData t9 = Except.ok emptyOutput :=
  ⟨by decide, c9_empty_input t9 (by decide)⟩

end MarketShares
